import Mathlib

/-!
Verification of `demo_dn_modis_lst.js`, a Google Earth Engine (EE) script that
scales, quality-masks and composites MODIS MOD11A2 land-surface-temperature
imagery and exports monthly medians.

The script is declarative client code: it builds a computation over EE images.
We embed its per-pixel semantics shallowly.  An `EEImage` is modelled at one
pixel: a partial map from band names to exact rational values, a boolean
validity mask, and the `system:time_start` timestamp.  Band values use `ℚ`
(the numeric constants 0.02 and 273.15 are exact rationals); time is a `ℚ`
instant on an order-preserving scale where calendar months are unit intervals,
so `Date.fromYMD(y,1,1).advance(n,'month')` is the integer month index
`12*y + n`.  Operations executed by the remote engine but not written in the
script (`qualityMosaic`, the `median` reducer) are modelled from the spec and
marked as such.
-/

/-- Embeds `bitwiseExtract(input, fromBit, toBit)` (per-pixel semantics):
`maskSize = 1 + toBit - fromBit`, `mask = (1 << maskSize) - 1`,
result `(input >> fromBit) & mask`.  `maskSize` is computed in `ℤ` exactly as
the script's `ee.Number` arithmetic does; a left shift by a negative count is
not a defined input of the remote engine's `leftShift`, so the embedding
returns `none` there. -/
def bitwiseExtract (input fromBit toBit : ℕ) : Option ℕ :=
  let maskSize : ℤ := 1 + (toBit : ℤ) - (fromBit : ℤ)
  if 0 ≤ maskSize then
    some ((input >>> fromBit) &&& (1 <<< maskSize.toNat - 1))
  else none

/-- `bitwiseExtract` computed as division and remainder. -/
theorem bitwiseExtract_eq_of_le (input fromBit toBit : ℕ) (h : fromBit ≤ toBit) :
    bitwiseExtract input fromBit toBit =
      some (input / 2 ^ fromBit % 2 ^ (toBit - fromBit + 1)) := by
  have hms : (0 : ℤ) ≤ 1 + (toBit : ℤ) - (fromBit : ℤ) := by omega
  have htn : (1 + (toBit : ℤ) - (fromBit : ℤ)).toNat = toBit - fromBit + 1 := by omega
  simp only [bitwiseExtract, if_pos hms, htn, Nat.shiftLeft_eq, one_mul,
    Nat.and_pow_two_sub_one_eq_mod, Nat.shiftRight_eq_div_pow]

/-- An EE image observed at one pixel: a partial map from band names to exact
values, the pixel's validity mask, and the image's `system:time_start`
property (an instant on the order-preserving time scale). -/
structure EEImage where
  bands : String → Option ℚ
  mask : Bool
  timeStart : ℚ

/-- `image.select(b)`: keep only band `b` (defined when the band exists). -/
def EEImage.select (image : EEImage) (b : String) : EEImage :=
  { image with bands := fun s => if s = b then image.bands s else none }

/-- `image.multiply(c)`: pointwise product on every band. -/
def EEImage.multiply (image : EEImage) (c : ℚ) : EEImage :=
  { image with bands := fun s => (image.bands s).map (fun v => v * c) }

/-- `image.add(c)`: pointwise sum on every band. -/
def EEImage.addConst (image : EEImage) (c : ℚ) : EEImage :=
  { image with bands := fun s => (image.bands s).map (fun v => v + c) }

/-- `image.addBands(other)` (no overwrite): bands of `image` win on a name
clash, new bands of `other` are appended. -/
def EEImage.addBands (image other : EEImage) : EEImage :=
  { image with bands := fun s =>
      match image.bands s with
      | some v => some v
      | none => other.bands s }

/-- `image.addBands(other, null, true)`: bands of `other` replace bands of
`image` with the same name. -/
def EEImage.addBandsOverwrite (image other : EEImage) : EEImage :=
  { image with bands := fun s =>
      match other.bands s with
      | some v => some v
      | none => image.bands s }

/-- `image.updateMask(m)`: the pixel stays valid only where `m` holds. -/
def EEImage.updateMask (image : EEImage) (m : Bool) : EEImage :=
  { image with mask := image.mask && m }

/-- `image.set('system:time_start', t)`. -/
def EEImage.setTimeStart (image : EEImage) (t : ℚ) : EEImage :=
  { image with timeStart := t }

/-- `scaleModisLst`: select `LST_Day_1km`, multiply by 0.02, add −273.15,
and add the result back with overwrite, replacing the original band. -/
def scaleModisLst (image : EEImage) : EEImage :=
  let thermalBands := ((image.select "LST_Day_1km").multiply (2 / 100)).addConst (-27315 / 100)
  image.addBandsOverwrite thermalBands

/-- The per-pixel `qaMask` computed by `maskModisLst` from the `QC_Day` value:
mandatory QA flag (bits 0–1) at most 1, data quality flag (bits 2–3) zero,
LST error flag (bits 6–7) at most 1. -/
def qaMaskOf (qcDay : ℕ) : Bool :=
  (decide ((bitwiseExtract qcDay 0 1).getD 0 ≤ 1) &&
    decide ((bitwiseExtract qcDay 2 3).getD 0 = 0)) &&
    decide ((bitwiseExtract qcDay 6 7).getD 0 ≤ 1)

/-- The `QC_Day` band value read as the non-negative integer digital number
it encodes (the engine reads the integer band; the embedding truncates the
rational band value accordingly). -/
def qcDayOf (image : EEImage) : ℕ :=
  ((image.bands "QC_Day").getD 0).num.toNat

/-- The single-band image
`bitwiseExtract(qcDay,0,1).lte(1).and(...(2,3).eq(0)).and(...(6,7).lte(1)).rename('qaMask')`
built inside `maskModisLst` (a 0/1 band). -/
def qaBandOf (image : EEImage) : EEImage :=
  { bands := fun s =>
      if s = "qaMask" then some (if qaMaskOf (qcDayOf image) then 1 else 0) else none,
    mask := image.mask, timeStart := image.timeStart }

/-- `maskModisLst`: compute the three bit-field tests on `QC_Day`, `and` them
into `qaMask`, add it as a band named `qaMask` and update the image mask. -/
def maskModisLst (image : EEImage) : EEImage :=
  (image.addBands (qaBandOf image)).updateMask (qaMaskOf (qcDayOf image))

/-- The single-band image
`ee.Image(image.getNumber('system:time_start')).rename('millis').toFloat()`
built inside `addVariablesTime` (`toFloat` is exact on the rational model). -/
def millisBandOf (image : EEImage) : EEImage :=
  { bands := fun s => if s = "millis" then some image.timeStart else none,
    mask := image.mask, timeStart := image.timeStart }

/-- `addVariablesTime`: add the image timestamp (`system:time_start`) as a
band named `millis`. -/
def addVariablesTime (image : EEImage) : EEImage :=
  image.addBands (millisBandOf image)

/-- `coll.filter(ee.Filter.date(start, end))` / `coll.filterDate(start, end)`:
keep images whose timestamp lies in the half-open interval `[start, end)`. -/
def filterDate (coll : List EEImage) (start stop : ℚ) : List EEImage :=
  coll.filter (fun i => decide (start ≤ i.timeStart) && decide (i.timeStart < stop))

/-- The first (quality-mosaic) pipeline of the script: filter the raw
collection to the date range, then scale, mask, and add the time band.
(`filterBounds` is a spatial restriction and is the identity at a fixed
pixel inside the region.) -/
def modisLST (raw : List EEImage) (startDate endDate : ℚ) : List EEImage :=
  (((filterDate raw startDate endDate).map scaleModisLst).map maskModisLst).map
    addVariablesTime

/-- One step of the per-pixel maximum search over the quality band. -/
def qmStep (q : String) (best : Option EEImage) (img : EEImage) : Option EEImage :=
  match best with
  | none => some img
  | some b => if (b.bands q).getD 0 < (img.bands q).getD 0 then some img else some b

/-- Modelled from the spec: `qualityMosaic` executes on the remote engine and
is not in the source; the spec's glossary defines it as "a temporal
compositing operation selecting, per pixel, the observation with the maximum
value of a chosen quality band".  At one pixel: among the images whose mask
keeps the pixel, pick one with maximal value of band `q` (`none` when every
observation is masked out). -/
def qualityMosaic (q : String) (coll : List EEImage) : Option EEImage :=
  (coll.filter (fun i => i.mask)).foldl (qmStep q) none

/-- `recentValueComposite = modisLST.qualityMosaic('millis')`. -/
def recentValueComposite (raw : List EEImage) (startDate endDate : ℚ) : Option EEImage :=
  qualityMosaic "millis" (modisLST raw startDate endDate)

/-! ### Version 2: monthly median composite

Calendar dates are modelled at month granularity: `ee.Date.fromYMD(y, 1, 1)`
is the month index `12 * y`, `date.advance(n, 'month')` adds `n`, and
`date.millis()` is the corresponding instant on the time scale (the embedding
of month indices into `ℚ`, order-preserving, months as unit intervals). -/

/-- `ee.Date.fromYMD(y, 1, 1)` as a month index. -/
def fromYMDJan (y : ℤ) : ℤ := 12 * y

/-- `date.advance(n, 'month')` on month indices. -/
def advanceMonth (d n : ℤ) : ℤ := d + n

/-- `date.millis()`: the instant of the start of month `d`. -/
def monthInstant (d : ℤ) : ℚ := (d : ℚ)

/-- `var year = 2018`. -/
def startYear : ℤ := 2018

/-- `var n_year = 4`. -/
def nYear : ℤ := 4

/-- Insertion into a sorted list of rationals. -/
def insertSorted (x : ℚ) : List ℚ → List ℚ
  | [] => [x]
  | y :: ys => if x ≤ y then x :: y :: ys else y :: insertSorted x ys

/-- Insertion sort on rationals. -/
def sortQ : List ℚ → List ℚ
  | [] => []
  | x :: xs => insertSorted x (sortQ xs)

/-- Median of a list of rationals: middle element of the sorted list, mean of
the two middle elements for an even length, `none` for the empty list. -/
def medianQ (l : List ℚ) : Option ℚ :=
  let s := sortQ l
  if s.length = 0 then none
  else if s.length % 2 = 1 then some (s.getD (s.length / 2) 0)
  else some ((s.getD (s.length / 2 - 1) 0 + s.getD (s.length / 2) 0) / 2)

/-- Modelled from the spec: the remote engine's `median()` reducer is not in
the source; per the spec it produces a "monthly median" temporal composite,
i.e. the per-pixel, per-band median of the unmasked observations.  The result
pixel is valid where at least one observation is. -/
def medianOf (coll : List EEImage) : EEImage :=
  { bands := fun s => medianQ (coll.filterMap (fun i => if i.mask then i.bands s else none)),
    mask := coll.any (fun i => i.mask),
    timeStart := 0 }

/-- The version-2 base collection: filter the raw collection to
`[fromYMD(year,1,1), fromYMD(year+n_year,1,1))`, scale, mask, and select
`LST_Day_1km`. -/
def modisLST2 (raw : List EEImage) : List EEImage :=
  (((filterDate raw (monthInstant (fromYMDJan startYear))
        (monthInstant (fromYMDJan (startYear + nYear)))).map scaleModisLst).map
      maskModisLst).map (fun i => i.select "LST_Day_1km")

/-- `modisLST_month`: for `n = 0 .. n_year*12 - 1`, the median of the base
collection over `[Jan 1 year advanced by n months, advanced by n+1 months)`,
with `system:time_start` set to the interval's start. -/
def modisLST_month (raw : List EEImage) : List EEImage :=
  (List.range (nYear * 12).toNat).map (fun n : ℕ =>
    let start := advanceMonth (fromYMDJan startYear) (n : ℤ)
    let stop := advanceMonth start 1
    (medianOf (filterDate (modisLST2 raw) (monthInstant start)
        (monthInstant stop))).setTimeStart (monthInstant start))

/-! ### Export -/

/-- Region geometries are opaque server-side handles; we model the requests
the script builds over them as a syntax tree. -/
inductive Region where
  | featureCollection : String → Region
  | firstFeature : Region → Region
  | buffer : Region → ℤ → Region
  | bounds : Region → Region
deriving DecidableEq

/-- `var roi = ee.FeatureCollection("users/QiuYuean/City_of_Detroit_Boundary")`. -/
def roi : Region := Region.featureCollection "users/QiuYuean/City_of_Detroit_Boundary"

/-- `var roi_detroit = ee.Feature(roi.first())`. -/
def roi_detroit : Region := Region.firstFeature roi

/-- `var roi_buffer = roi_detroit.buffer(10000).bounds()`. -/
def roi_buffer : Region := Region.bounds (Region.buffer roi_detroit 10000)

/-- `var folder = 'GEO874_2023FA'`. -/
def folder : String := "GEO874_2023FA"

/-- `var crs = 'EPSG:4326'`. -/
def crs : String := "EPSG:4326"

/-- The parameters of one `Export.image.toDrive` request.  `fileNamePre`
models the call's file-name-prefix parameter; `scaleMeters` is the `scale`
parameter in meters. -/
structure ExportRequest where
  imageBands : List EEImage
  description : String
  exportFolder : String
  fileNamePre : String
  fileFormat : String
  region : Region
  scaleMeters : ℕ
  exportCrs : String

/-- Every export request the script issues.  The first
`Export.image.toDrive` block (lines 166–176) is commented out; only the
monthly-median export runs.  Its image is `modisLST_month(...).toBands()`,
carried here as the image list. -/
def exportRequests (raw : List EEImage) : List ExportRequest :=
  [{ imageBands := modisLST_month raw,
     description := "MOD11A2_detroit_monthly_median",
     exportFolder := folder,
     fileNamePre := "mod11a2_detroit_monthly_median",
     fileFormat := "GeoTIFF",
     region := roi_buffer,
     scaleMeters := 1000,
     exportCrs := crs }]

/-! ### Concrete test data used to evaluate the development on closed inputs -/

/-- A concrete MOD11A2-style observation: raw LST digital number 14600,
best-quality `QC_Day`, valid pixel, timestamp 1. -/
def obsA : EEImage :=
  { bands := fun s =>
      if s = "LST_Day_1km" then some 14600
      else if s = "QC_Day" then some 0 else none,
    mask := true, timeStart := 1 }

/-- A second concrete observation, raw LST 14950, timestamp 2. -/
def obsB : EEImage :=
  { bands := fun s =>
      if s = "LST_Day_1km" then some 14950
      else if s = "QC_Day" then some 0 else none,
    mask := true, timeStart := 2 }

/-- A concrete two-observation raw collection. -/
def rawTest : List EEImage := [obsA, obsB]

/-- The pipeline image produced from `obsB` (the later observation). -/
def compositeB : EEImage := addVariablesTime (maskModisLst (scaleModisLst obsB))

/-- A concrete observation whose `QC_Day` is 113 = 1 + 4*0 + 16*3 + 64*1:
mandatory QA 1, data quality 0, emissivity error 3, LST error 1. -/
def obsC : EEImage :=
  { bands := fun s =>
      if s = "LST_Day_1km" then some 14600
      else if s = "QC_Day" then some 113 else none,
    mask := true, timeStart := 3 }

/-- The single export request the script issues, on the empty raw collection. -/
def exportRequest0 : ExportRequest :=
  { imageBands := modisLST_month [],
    description := "MOD11A2_detroit_monthly_median",
    exportFolder := folder,
    fileNamePre := "mod11a2_detroit_monthly_median",
    fileFormat := "GeoTIFF",
    region := roi_buffer,
    scaleMeters := 1000,
    exportCrs := crs }

/-! ## Helper lemmas -/

/-- `addBands` keeps a band of the base image. -/
theorem addBands_bands_of_some (image other : EEImage) (s : String) (v : ℚ)
    (h : image.bands s = some v) : (image.addBands other).bands s = some v := by
  show (match image.bands s with
    | some v => some v
    | none => other.bands s) = some v
  rw [h]

/-- `addBands` exposes a band of the added image on names the base lacks. -/
theorem addBands_bands_of_none (image other : EEImage) (s : String)
    (h : image.bands s = none) : (image.addBands other).bands s = other.bands s := by
  show (match image.bands s with
    | some v => some v
    | none => other.bands s) = other.bands s
  rw [h]

/-- Overwriting `addBands` keeps a band the overwriting image lacks. -/
theorem addBandsOverwrite_bands_of_none (image other : EEImage) (s : String)
    (h : other.bands s = none) :
    (image.addBandsOverwrite other).bands s = image.bands s := by
  show (match other.bands s with
    | some v => some v
    | none => image.bands s) = image.bands s
  rw [h]

/-- Overwriting `addBands` takes a band the overwriting image has. -/
theorem addBandsOverwrite_bands_of_some (image other : EEImage) (s : String) (v : ℚ)
    (h : other.bands s = some v) :
    (image.addBandsOverwrite other).bands s = some v := by
  show (match other.bands s with
    | some v => some v
    | none => image.bands s) = some v
  rw [h]

/-- `scaleModisLst` leaves every band other than `LST_Day_1km` unchanged. -/
theorem scaleModisLst_bands_of_ne (image : EEImage) (s : String)
    (hs : s ≠ "LST_Day_1km") : (scaleModisLst image).bands s = image.bands s := by
  apply addBandsOverwrite_bands_of_none
  simp [EEImage.addConst, EEImage.multiply, EEImage.select, hs]

/-- The scaled thermal band of `scaleModisLst`. -/
theorem scaleModisLst_bands_lst (image : EEImage) (v : ℚ)
    (h : image.bands "LST_Day_1km" = some v) :
    (scaleModisLst image).bands "LST_Day_1km" = some (v * (2 / 100) + -27315 / 100) := by
  apply addBandsOverwrite_bands_of_some
  simp [EEImage.addConst, EEImage.multiply, EEImage.select, h]

/-- `scaleModisLst` does not touch the mask. -/
theorem scaleModisLst_mask (image : EEImage) :
    (scaleModisLst image).mask = image.mask := rfl

/-- `scaleModisLst` does not touch the timestamp. -/
theorem scaleModisLst_timeStart (image : EEImage) :
    (scaleModisLst image).timeStart = image.timeStart := rfl

/-- The mask computed by `maskModisLst`. -/
theorem maskModisLst_mask (image : EEImage) :
    (maskModisLst image).mask = (image.mask && qaMaskOf (qcDayOf image)) := rfl

/-- `maskModisLst` does not touch the timestamp. -/
theorem maskModisLst_timeStart (image : EEImage) :
    (maskModisLst image).timeStart = image.timeStart := rfl

/-- `maskModisLst` keeps every existing band. -/
theorem maskModisLst_bands_of_some (image : EEImage) (s : String) (v : ℚ)
    (h : image.bands s = some v) : (maskModisLst image).bands s = some v :=
  addBands_bands_of_some image (qaBandOf image) s v h

/-- The `qaMask` band added by `maskModisLst` (when the input has no band of
that name, as MOD11A2 images do not). -/
theorem maskModisLst_bands_qaMask (image : EEImage)
    (hqa : image.bands "qaMask" = none) :
    (maskModisLst image).bands "qaMask" =
      some (if qaMaskOf (qcDayOf image) then 1 else 0) := by
  have h1 : (maskModisLst image).bands "qaMask" =
      (image.addBands (qaBandOf image)).bands "qaMask" := rfl
  rw [h1, addBands_bands_of_none _ _ _ hqa]
  simp [qaBandOf]

/-- `maskModisLst` adds no band named `millis`. -/
theorem maskModisLst_bands_millis (image : EEImage)
    (h : image.bands "millis" = none) : (maskModisLst image).bands "millis" = none := by
  have h1 : (maskModisLst image).bands "millis" =
      (image.addBands (qaBandOf image)).bands "millis" := rfl
  rw [h1, addBands_bands_of_none _ _ _ h]
  simp [qaBandOf]

/-- `addVariablesTime` does not touch mask or timestamp. -/
theorem addVariablesTime_mask_timeStart (image : EEImage) :
    (addVariablesTime image).mask = image.mask ∧
      (addVariablesTime image).timeStart = image.timeStart := ⟨rfl, rfl⟩

/-- The `millis` band added by `addVariablesTime` (when the input has no band
of that name). -/
theorem addVariablesTime_bands_millis (image : EEImage)
    (h : image.bands "millis" = none) :
    (addVariablesTime image).bands "millis" = some image.timeStart := by
  rw [show (addVariablesTime image).bands "millis" =
      (image.addBands (millisBandOf image)).bands "millis" from rfl,
    addBands_bands_of_none _ _ _ h]
  simp [millisBandOf]

/-- After the full first pipeline stage, `millis` holds the original
timestamp and the timestamp is preserved. -/
theorem pipeline_millis (i : EEImage) (h : i.bands "millis" = none) :
    (addVariablesTime (maskModisLst (scaleModisLst i))).bands "millis" =
      some i.timeStart ∧
    (addVariablesTime (maskModisLst (scaleModisLst i))).timeStart = i.timeStart := by
  have h1 : (scaleModisLst i).bands "millis" = none := by
    rw [scaleModisLst_bands_of_ne i "millis" (by decide)]; exact h
  have h2 : (maskModisLst (scaleModisLst i)).bands "millis" = none :=
    maskModisLst_bands_millis _ h1
  exact ⟨addVariablesTime_bands_millis _ h2, rfl⟩

/-! ## Claims -/

/-- C1: for every non-negative integer input value and bit positions with
`fromBit ≤ toBit`, `bitwiseExtract(input, fromBit, toBit)` returns exactly
`(value >> fromBit) & ((1 << (toBit - fromBit + 1)) - 1)`, i.e. the unsigned
integer encoded by bits `fromBit..toBit` of the input (the value
`input / 2 ^ fromBit % 2 ^ (toBit - fromBit + 1)`). -/
theorem C1_bitwiseExtract_formula (value fromBit toBit : ℕ) (h : fromBit ≤ toBit) :
    bitwiseExtract value fromBit toBit =
      some ((value >>> fromBit) &&& (1 <<< (toBit - fromBit + 1) - 1)) ∧
    (value >>> fromBit) &&& (1 <<< (toBit - fromBit + 1) - 1) =
      value / 2 ^ fromBit % 2 ^ (toBit - fromBit + 1) := by
  have h2 : (value >>> fromBit) &&& (1 <<< (toBit - fromBit + 1) - 1) =
      value / 2 ^ fromBit % 2 ^ (toBit - fromBit + 1) := by
    simp only [Nat.shiftLeft_eq, one_mul, Nat.and_pow_two_sub_one_eq_mod,
      Nat.shiftRight_eq_div_pow]
  exact ⟨(bitwiseExtract_eq_of_le value fromBit toBit h).trans (by rw [h2]), h2⟩

/-- Witness for C1 at `value = 214`, bits 2–3. -/
theorem C1_witness :
    2 ≤ 3 ∧
    (bitwiseExtract 214 2 3 = some ((214 >>> 2) &&& (1 <<< (3 - 2 + 1) - 1)) ∧
      (214 >>> 2) &&& (1 <<< (3 - 2 + 1) - 1) = 214 / 2 ^ 2 % 2 ^ (3 - 2 + 1)) :=
  ⟨by decide, C1_bitwiseExtract_formula 214 2 3 (by decide)⟩

/-- C9: for `fromBit ≤ toBit` the extracted field is bounded by
`2 ^ (toBit - fromBit + 1)`; a 2-bit field is in `0..3`. -/
theorem C9_bitwiseExtract_bounded (value fromBit toBit r : ℕ) (h : fromBit ≤ toBit)
    (hr : bitwiseExtract value fromBit toBit = some r) :
    r < 2 ^ (toBit - fromBit + 1) ∧ (toBit = fromBit + 1 → r ≤ 3) := by
  rw [bitwiseExtract_eq_of_le value fromBit toBit h] at hr
  have hr2 : value / 2 ^ fromBit % 2 ^ (toBit - fromBit + 1) = r := Option.some.inj hr
  have hlt : r < 2 ^ (toBit - fromBit + 1) :=
    hr2 ▸ Nat.mod_lt _ (Nat.two_pow_pos _)
  refine ⟨hlt, fun ht => ?_⟩
  have h2 : toBit - fromBit + 1 = 2 := by omega
  rw [h2] at hlt
  omega

/-- Witness for C9 at `value = 214`, bits 0–1 (a 2-bit field, value 2). -/
theorem C9_witness :
    (0 ≤ 1 ∧ bitwiseExtract 214 0 1 = some 2) ∧
    (2 < 2 ^ (1 - 0 + 1) ∧ (1 = 0 + 1 → 2 ≤ 3)) :=
  ⟨⟨by decide, by decide⟩, C9_bitwiseExtract_bounded 214 0 1 2 (by decide) (by decide)⟩

/-- C3: `scaleModisLst` maps the `LST_Day_1km` digital number `v` to
`v * 0.02 - 273.15` degrees Celsius, and the scaled value replaces the
original `LST_Day_1km` band of the returned image. -/
theorem C3_scaleModisLst (image : EEImage) (v : ℚ)
    (h : image.bands "LST_Day_1km" = some v) :
    (scaleModisLst image).bands "LST_Day_1km" = some (v * 0.02 - 273.15) := by
  rw [scaleModisLst_bands_lst image v h]
  norm_num
  ring

/-- Witness for C3 on a concrete observation: `14950 * 0.02 - 273.15 = 25.85`
degrees Celsius. -/
theorem C3_witness :
    obsB.bands "LST_Day_1km" = some 14950 ∧
    (scaleModisLst obsB).bands "LST_Day_1km" = some (14950 * 0.02 - 273.15) :=
  ⟨by decide, C3_scaleModisLst obsB 14950 (by decide)⟩

/-- C10: `scaleModisLst` changes only the `LST_Day_1km` band: every other
band — in particular `QC_Day` — as well as the mask and timestamp are
unchanged, so the subsequent `maskModisLst` computes the same mask from the
scaled image as from the raw one (it reads raw, unscaled QA values).  The
hypothesis records that `select('LST_Day_1km')` requires the band to exist. -/
theorem C10_scaleModisLst_frame (image : EEImage)
    (_h : (image.bands "LST_Day_1km").isSome = true) :
    (∀ s : String, s ≠ "LST_Day_1km" → (scaleModisLst image).bands s = image.bands s) ∧
    (scaleModisLst image).mask = image.mask ∧
    (scaleModisLst image).timeStart = image.timeStart ∧
    (scaleModisLst image).bands "QC_Day" = image.bands "QC_Day" ∧
    (maskModisLst (scaleModisLst image)).mask = (maskModisLst image).mask := by
  have hqc : (scaleModisLst image).bands "QC_Day" = image.bands "QC_Day" :=
    scaleModisLst_bands_of_ne image "QC_Day" (by decide)
  refine ⟨fun s hs => scaleModisLst_bands_of_ne image s hs, rfl, rfl, hqc, ?_⟩
  rw [maskModisLst_mask, maskModisLst_mask, scaleModisLst_mask]
  have h2 : qcDayOf (scaleModisLst image) = qcDayOf image := by
    unfold qcDayOf; rw [hqc]
  rw [h2]

/-- Witness for C10 on a concrete observation. -/
theorem C10_witness :
    (obsB.bands "LST_Day_1km").isSome = true ∧
    ((∀ s : String, s ≠ "LST_Day_1km" → (scaleModisLst obsB).bands s = obsB.bands s) ∧
      (scaleModisLst obsB).mask = obsB.mask ∧
      (scaleModisLst obsB).timeStart = obsB.timeStart ∧
      (scaleModisLst obsB).bands "QC_Day" = obsB.bands "QC_Day" ∧
      (maskModisLst (scaleModisLst obsB)).mask = (maskModisLst obsB).mask) :=
  ⟨by decide, C10_scaleModisLst_frame obsB (by decide)⟩

/-- C7: each per-image transform is stateless and deterministic: applied
twice to the same image it gives the same image, and mapping the transforms
over a collection acts on every image independently of the images around it
(the result at one position is the transform of that image alone). -/
theorem C7_transforms_stateless (imgs1 imgs2 : List EEImage) (a : EEImage) :
    (scaleModisLst a = scaleModisLst a ∧ maskModisLst a = maskModisLst a ∧
      addVariablesTime a = addVariablesTime a) ∧
    ((imgs1 ++ a :: imgs2).map scaleModisLst =
      imgs1.map scaleModisLst ++ scaleModisLst a :: imgs2.map scaleModisLst) ∧
    ((imgs1 ++ a :: imgs2).map maskModisLst =
      imgs1.map maskModisLst ++ maskModisLst a :: imgs2.map maskModisLst) ∧
    ((imgs1 ++ a :: imgs2).map addVariablesTime =
      imgs1.map addVariablesTime ++ addVariablesTime a :: imgs2.map addVariablesTime) := by
  refine ⟨⟨rfl, rfl, rfl⟩, ?_, ?_, ?_⟩ <;> simp

/-- C6: every export request the script issues asks for a GeoTIFF raster with
folder `GEO874_2023FA`, file-name prefix `mod11a2_detroit_monthly_median`,
region the ROI's first feature buffered by 10000 m and bounded, scale 1000 m,
and CRS `EPSG:4326`. -/
theorem C6_export_params (raw : List EEImage) :
    ∀ e ∈ exportRequests raw,
      e.fileFormat = "GeoTIFF" ∧
      e.exportFolder = "GEO874_2023FA" ∧
      e.fileNamePre = "mod11a2_detroit_monthly_median" ∧
      e.region = Region.bounds (Region.buffer (Region.firstFeature
        (Region.featureCollection "users/QiuYuean/City_of_Detroit_Boundary")) 10000) ∧
      e.scaleMeters = 1000 ∧
      e.exportCrs = "EPSG:4326" := by
  intro e he
  simp only [exportRequests, List.mem_singleton] at he
  subst he
  exact ⟨rfl, rfl, rfl, rfl, rfl, rfl⟩

/-- Witness for C6 at the concrete request. -/
theorem C6_witness :
    exportRequest0 ∈ exportRequests [] ∧
    (exportRequest0.fileFormat = "GeoTIFF" ∧
      exportRequest0.exportFolder = "GEO874_2023FA" ∧
      exportRequest0.fileNamePre = "mod11a2_detroit_monthly_median" ∧
      exportRequest0.region = Region.bounds (Region.buffer (Region.firstFeature
        (Region.featureCollection "users/QiuYuean/City_of_Detroit_Boundary")) 10000) ∧
      exportRequest0.scaleMeters = 1000 ∧
      exportRequest0.exportCrs = "EPSG:4326") :=
  ⟨List.mem_singleton.mpr rfl,
    C6_export_params [] exportRequest0 (List.mem_singleton.mpr rfl)⟩

/-- The `qaMask` bit computed from a `QC_Day` value decomposed into its four
2-bit fields: mandatory QA `man` (bits 0–1), data quality `dq` (bits 2–3),
emissivity error `e` (bits 4–5), LST error `le2` (bits 6–7).  The emissivity
field does not occur in the result. -/
theorem qaMaskOf_decompose (man dq e le2 : ℕ) (hman : man < 4) (hdq : dq < 4)
    (he : e < 4) (hle : le2 < 4) :
    qaMaskOf (man + 4 * dq + 16 * e + 64 * le2) =
      ((decide (man ≤ 1) && decide (dq = 0)) && decide (le2 ≤ 1)) := by
  have h01 : bitwiseExtract (man + 4 * dq + 16 * e + 64 * le2) 0 1 = some man := by
    rw [bitwiseExtract_eq_of_le _ _ _ (by omega)]
    have h2 : (man + 4 * dq + 16 * e + 64 * le2) / 2 ^ 0 % 2 ^ (1 - 0 + 1) = man := by
      show (man + 4 * dq + 16 * e + 64 * le2) / 1 % 4 = man
      omega
    rw [h2]
  have h23 : bitwiseExtract (man + 4 * dq + 16 * e + 64 * le2) 2 3 = some dq := by
    rw [bitwiseExtract_eq_of_le _ _ _ (by omega)]
    have h2 : (man + 4 * dq + 16 * e + 64 * le2) / 2 ^ 2 % 2 ^ (3 - 2 + 1) = dq := by
      show (man + 4 * dq + 16 * e + 64 * le2) / 4 % 4 = dq
      omega
    rw [h2]
  have h67 : bitwiseExtract (man + 4 * dq + 16 * e + 64 * le2) 6 7 = some le2 := by
    rw [bitwiseExtract_eq_of_le _ _ _ (by omega)]
    have h2 : (man + 4 * dq + 16 * e + 64 * le2) / 2 ^ 6 % 2 ^ (7 - 6 + 1) = le2 := by
      show (man + 4 * dq + 16 * e + 64 * le2) / 64 % 4 = le2
      omega
    rw [h2]
  unfold qaMaskOf
  rw [h01, h23, h67]
  simp only [Option.getD_some]

/-- C8: `maskModisLst` keeps a pixel (given the incoming mask) exactly when
the mandatory QA flag (bits 0–1) of `QC_Day` is at most 1, the data quality
flag (bits 2–3) is 0, and the LST error flag (bits 6–7) is at most 1; the
emissivity error flag `e` (bits 4–5) never affects the result, and the
combined 0/1 mask is added as a band named `qaMask`. -/
theorem C8_maskModisLst (image : EEImage) (man dq e le2 : ℕ) (hman : man < 4)
    (hdq : dq < 4) (he : e < 4) (hle : le2 < 4)
    (hqc : image.bands "QC_Day" = some ((man + 4 * dq + 16 * e + 64 * le2 : ℕ) : ℚ))
    (hqa : image.bands "qaMask" = none) :
    ((maskModisLst image).mask = true ↔
      (image.mask = true ∧ (man ≤ 1 ∧ dq = 0 ∧ le2 ≤ 1))) ∧
    (maskModisLst image).bands "qaMask" =
      some (if man ≤ 1 ∧ dq = 0 ∧ le2 ≤ 1 then 1 else 0) := by
  have hN : qcDayOf image = man + 4 * dq + 16 * e + 64 * le2 := by
    unfold qcDayOf
    rw [hqc]
    simp only [Option.getD_some, Rat.num_natCast, Int.toNat_natCast]
  have hq : qaMaskOf (qcDayOf image) =
      ((decide (man ≤ 1) && decide (dq = 0)) && decide (le2 ≤ 1)) := by
    rw [hN]; exact qaMaskOf_decompose man dq e le2 hman hdq he hle
  constructor
  · rw [maskModisLst_mask, hq]
    simp [and_assoc]
  · rw [maskModisLst_bands_qaMask image hqa, hq]
    by_cases hc : man ≤ 1 ∧ dq = 0 ∧ le2 ≤ 1
    · rw [if_pos hc, if_pos]
      simp [hc.1, hc.2.1, hc.2.2]
    · rw [if_neg hc, if_neg]
      simp only [Bool.and_eq_true, decide_eq_true_eq, and_assoc]
      exact hc

/-- Witness for C8 at `QC_Day = 113 = 1 + 4*0 + 16*3 + 64*1` (mandatory QA 1,
data quality 0, emissivity error 3, LST error 1): the pixel is kept. -/
theorem C8_witness :
    (obsC.bands "QC_Day" = some ((1 + 4 * 0 + 16 * 3 + 64 * 1 : ℕ) : ℚ) ∧
      obsC.bands "qaMask" = none) ∧
    (((maskModisLst obsC).mask = true ↔
      (obsC.mask = true ∧ (1 ≤ 1 ∧ 0 = 0 ∧ 1 ≤ 1))) ∧
    (maskModisLst obsC).bands "qaMask" =
      some (if (1:ℕ) ≤ 1 ∧ (0:ℕ) = 0 ∧ (1:ℕ) ≤ 1 then 1 else 0)) :=
  ⟨⟨by show some (113 : ℚ) = some ((1 + 4 * 0 + 16 * 3 + 64 * 1 : ℕ) : ℚ); norm_num,
      by decide⟩,
    C8_maskModisLst obsC 1 0 3 1 (by decide) (by decide) (by decide) (by decide)
      (by show some (113 : ℚ) = some ((1 + 4 * 0 + 16 * 3 + 64 * 1 : ℕ) : ℚ); norm_num)
      (by decide)⟩

/-- Folding `qmStep` returns the accumulator or a list element, and the
result dominates the accumulator and every list element in band `q`. -/
theorem qmFold_spec (q : String) (l : List EEImage) :
    ∀ (acc : Option EEImage) (b : EEImage),
      l.foldl (qmStep q) acc = some b →
      (acc = some b ∨ b ∈ l) ∧
      (∀ j : EEImage, acc = some j → (j.bands q).getD 0 ≤ (b.bands q).getD 0) ∧
      (∀ j ∈ l, (j.bands q).getD 0 ≤ (b.bands q).getD 0) := by
  induction l with
  | nil =>
    intro acc b hb
    simp only [List.foldl_nil] at hb
    subst hb
    exact ⟨Or.inl rfl,
      fun j hj => by obtain rfl := Option.some.inj hj; exact le_refl _,
      by simp⟩
  | cons x xs ih =>
    intro acc b hb
    simp only [List.foldl_cons] at hb
    obtain ⟨h1, h2, h3⟩ := ih (qmStep q acc x) b hb
    cases acc with
    | none =>
      have hstep : qmStep q none x = some x := rfl
      rw [hstep] at h1 h2
      refine ⟨?_, ?_, ?_⟩
      · rcases h1 with h1 | h1
        · obtain rfl := Option.some.inj h1
          exact Or.inr (List.mem_cons_self x xs)
        · exact Or.inr (List.mem_cons_of_mem x h1)
      · intro j hj; exact absurd hj (by simp)
      · intro j hj
        rcases List.mem_cons.mp hj with rfl | hj2
        · exact h2 j rfl
        · exact h3 j hj2
    | some a =>
      by_cases hlt : (a.bands q).getD 0 < (x.bands q).getD 0
      · have hstep : qmStep q (some a) x = some x := by simp [qmStep, hlt]
        rw [hstep] at h1 h2
        refine ⟨?_, ?_, ?_⟩
        · rcases h1 with h1 | h1
          · obtain rfl := Option.some.inj h1
            exact Or.inr (List.mem_cons_self x xs)
          · exact Or.inr (List.mem_cons_of_mem x h1)
        · intro j hj
          obtain rfl := Option.some.inj hj
          exact le_trans (le_of_lt hlt) (h2 x rfl)
        · intro j hj
          rcases List.mem_cons.mp hj with rfl | hj2
          · exact h2 j rfl
          · exact h3 j hj2
      · have hstep : qmStep q (some a) x = some a := by simp [qmStep, hlt]
        rw [hstep] at h1 h2
        refine ⟨?_, ?_, ?_⟩
        · rcases h1 with h1 | h1
          · exact Or.inl h1
          · exact Or.inr (List.mem_cons_of_mem x h1)
        · intro j hj
          obtain rfl := Option.some.inj hj
          exact h2 a rfl
        · intro j hj
          rcases List.mem_cons.mp hj with rfl | hj2
          · exact le_trans (le_of_not_lt hlt) (h2 a rfl)
          · exact h3 j hj2

/-- A quality mosaic yields an unmasked member of the collection that is
maximal in the quality band among all unmasked members. -/
theorem qualityMosaic_mem_max (q : String) (coll : List EEImage) (b : EEImage)
    (hb : qualityMosaic q coll = some b) :
    b ∈ coll ∧ b.mask = true ∧
      ∀ j ∈ coll, j.mask = true → (j.bands q).getD 0 ≤ (b.bands q).getD 0 := by
  unfold qualityMosaic at hb
  obtain ⟨h1, h2, h3⟩ := qmFold_spec q (coll.filter fun i => i.mask) none b hb
  rcases h1 with h1 | h1
  · exact absurd h1 (by simp)
  · have hm := List.mem_filter.mp h1
    exact ⟨hm.1, hm.2, fun j hj hjm => h3 j (List.mem_filter.mpr ⟨hj, hjm⟩)⟩

/-- C4: the recent-value composite `modisLST.qualityMosaic('millis')` holds,
at this pixel, an unmasked observation of the filtered, transformed
collection whose `millis` band equals its own `system:time_start` (which
`addVariablesTime` set), and whose timestamp is maximal among all unmasked
observations — the most recent unmasked observation. -/
theorem C4_recentValueComposite (raw : List EEImage) (startDate endDate : ℚ)
    (b : EEImage) (hmil : ∀ i ∈ raw, i.bands "millis" = none)
    (hb : recentValueComposite raw startDate endDate = some b) :
    b ∈ modisLST raw startDate endDate ∧ b.mask = true ∧
    b.bands "millis" = some b.timeStart ∧
    ∀ j ∈ modisLST raw startDate endDate, j.mask = true → j.timeStart ≤ b.timeStart := by
  unfold recentValueComposite at hb
  obtain ⟨hmem, hmask, hmax⟩ := qualityMosaic_mem_max "millis" _ b hb
  have hchar : ∀ j ∈ modisLST raw startDate endDate,
      j.bands "millis" = some j.timeStart := by
    intro j hj
    simp only [modisLST, List.mem_map] at hj
    obtain ⟨j1, ⟨j2, ⟨i, hi, rfl⟩, rfl⟩, rfl⟩ := hj
    have hiraw : i ∈ raw := (List.mem_filter.mp hi).1
    have hp := pipeline_millis i (hmil i hiraw)
    rw [hp.1, hp.2]
  have hbm := hchar b hmem
  refine ⟨hmem, hmask, hbm, fun j hj hjm => ?_⟩
  have h1 := hmax j hj hjm
  rw [hchar j hj, hbm] at h1
  simpa using h1

/-- Witness for C4 on a concrete two-image collection: the mosaic picks the
later (timestamp 2) observation. -/
theorem C4_witness :
    (∀ i ∈ rawTest, i.bands "millis" = none) ∧
    (compositeB ∈ modisLST rawTest 0 10 ∧ compositeB.mask = true ∧
      compositeB.bands "millis" = some compositeB.timeStart ∧
      ∀ j ∈ modisLST rawTest 0 10, j.mask = true →
        j.timeStart ≤ compositeB.timeStart) :=
  ⟨fun i hi => by simp only [rawTest] at hi; fin_cases hi <;> rfl,
    C4_recentValueComposite rawTest 0 10 compositeB
      (fun i hi => by simp only [rawTest] at hi; fin_cases hi <;> rfl)
      rfl⟩

/-- C5: the version-2 aggregation builds exactly `n_year * 12 = 48` monthly
images; image `n` is the median of the scaled, masked, `LST_Day_1km`-selected
collection restricted to the half-open interval
`[Jan 1 2018 advanced by n months, advanced by n + 1 months)` with
`system:time_start` the start of that month; consecutive intervals are
adjacent (`advance (n+1) = advance n` then one more month), pairwise
non-overlapping, and together run from Jan 2018 to Jan 2022. -/
theorem C5_modisLST_month (raw : List EEImage) :
    (modisLST_month raw).length = 48 ∧
    (∀ n : ℕ, n < 48 →
      (modisLST_month raw)[n]? =
        some ((medianOf (filterDate (modisLST2 raw)
            (monthInstant (advanceMonth (fromYMDJan 2018) (n : ℤ)))
            (monthInstant (advanceMonth (fromYMDJan 2018) ((n : ℤ) + 1))))).setTimeStart
          (monthInstant (advanceMonth (fromYMDJan 2018) (n : ℤ))))) ∧
    (∀ n : ℕ, n < 48 →
      ((modisLST_month raw)[n]?).map EEImage.timeStart =
        some (monthInstant (advanceMonth (fromYMDJan 2018) (n : ℤ)))) ∧
    (∀ n : ℤ, advanceMonth (fromYMDJan 2018) (n + 1) =
      advanceMonth (advanceMonth (fromYMDJan 2018) n) 1) ∧
    advanceMonth (fromYMDJan 2018) 0 = fromYMDJan 2018 ∧
    advanceMonth (fromYMDJan 2018) 48 = fromYMDJan 2022 ∧
    (∀ n m : ℤ, ∀ t : ℚ,
      monthInstant (advanceMonth (fromYMDJan 2018) n) ≤ t →
      t < monthInstant (advanceMonth (fromYMDJan 2018) (n + 1)) →
      monthInstant (advanceMonth (fromYMDJan 2018) m) ≤ t →
      t < monthInstant (advanceMonth (fromYMDJan 2018) (m + 1)) → n = m) := by
  have hy : startYear = (2018 : ℤ) := rfl
  have helem : ∀ n : ℕ, n < 48 →
      (modisLST_month raw)[n]? =
        some ((medianOf (filterDate (modisLST2 raw)
            (monthInstant (advanceMonth (fromYMDJan 2018) (n : ℤ)))
            (monthInstant (advanceMonth (fromYMDJan 2018) ((n : ℤ) + 1))))).setTimeStart
          (monthInstant (advanceMonth (fromYMDJan 2018) (n : ℤ)))) := by
    intro n hn
    have h48 : n < (nYear * 12).toNat := by
      have : (nYear * 12).toNat = 48 := rfl
      omega
    have harg : advanceMonth (advanceMonth (fromYMDJan 2018) (n : ℤ)) 1 =
        advanceMonth (fromYMDJan 2018) ((n : ℤ) + 1) := by
      unfold advanceMonth; ring
    simp only [modisLST_month, List.getElem?_map, List.getElem?_range h48,
      Option.map_some']
    rw [hy, harg]
  refine ⟨?_, helem, ?_, ?_, ?_, ?_, ?_⟩
  · simp only [modisLST_month, List.length_map, List.length_range]
    rfl
  · intro n hn
    rw [helem n hn]
    rfl
  · intro n
    unfold advanceMonth; ring
  · unfold advanceMonth fromYMDJan; ring
  · unfold advanceMonth fromYMDJan; norm_num
  · intro n m t h1 h2 h3 h4
    simp only [monthInstant, advanceMonth, fromYMDJan] at h1 h2 h3 h4
    push_cast at h1 h2 h3 h4
    have e1 : (n : ℚ) < (m : ℚ) + 1 := by linarith
    have e2 : (m : ℚ) < (n : ℚ) + 1 := by linarith
    have e3 : n < m + 1 := by exact_mod_cast e1
    have e4 : m < n + 1 := by exact_mod_cast e2
    omega

/-- Witness for C5 at `n = 0` on the empty raw collection: 48 images, the
first being the median over `[Jan 2018, Feb 2018)` stamped at Jan 2018. -/
theorem C5_witness :
    (0 < 48 ∧
      (modisLST_month [])[0]? =
        some ((medianOf (filterDate (modisLST2 [])
            (monthInstant (advanceMonth (fromYMDJan 2018) ((0 : ℕ) : ℤ)))
            (monthInstant (advanceMonth (fromYMDJan 2018) (((0 : ℕ) : ℤ) + 1))))).setTimeStart
          (monthInstant (advanceMonth (fromYMDJan 2018) ((0 : ℕ) : ℤ))))) ∧
    (modisLST_month []).length = 48 :=
  ⟨⟨by decide, (C5_modisLST_month []).2.1 0 (by decide)⟩, (C5_modisLST_month []).1⟩
